import Mathlib

/-!
# Verification of the electric-piano MIDI SysEx bootloader

A shallow embedding of `src/firmware/bootloader.cpp`: the byte-stream
framer/parser state machine (`loop`), the command dispatcher (`process_msg`),
and the flash page write/read/verify operations, together with theorems about
the claims of the specification.

The device constants `SPM_PAGESIZE` and `FLASHEND` come from the AVR device
headers, not from this repository, so the embedding is parametric in
`pageSize` (`SPM_PAGESIZE`) and, where relevant, `flashEnd` (`FLASHEND`).
`NUM_PAGES` is `(FLASHEND + 1) / SPM_PAGESIZE` as in the source.  On every
AVR device `SPM_PAGESIZE` is even; theorems about the word-wise page fill
carry that as a hypothesis.

Machine bytes are modelled as `Nat` with explicit `% 256` where the C code's
`uint8_t` arithmetic can truncate.  The message buffer
(`msg.buffer`, of size `SPM_PAGESIZE + 3`) and the flash array are modelled
as `List Nat`.  Replies sent over the wire are modelled at the level of their
decoded content: the byte list `msg.buffer[0 .. command+params)` that
`send_msg` nibble-encodes; `Out.jump` marks the transfer of control to the
resident application after a Quit.
-/

namespace Boot

/-- `ERROR_HEADER_MISMATCH` from the `error_t` enum. -/
@[simp] def ERROR_HEADER_MISMATCH : Nat := 1
/-- `ERROR_INVALID_FORMAT` from the `error_t` enum. -/
@[simp] def ERROR_INVALID_FORMAT : Nat := 2
/-- `ERROR_INCOMPLETE_MESSAGE` from the `error_t` enum. -/
@[simp] def ERROR_INCOMPLETE_MESSAGE : Nat := 3
/-- `ERROR_INVALID_NIBBLE` from the `error_t` enum. -/
@[simp] def ERROR_INVALID_NIBBLE : Nat := 4
/-- `ERROR_INVALID_CHECKSUM` from the `error_t` enum. -/
@[simp] def ERROR_INVALID_CHECKSUM : Nat := 5
/-- `ERROR_UNKNOWN_COMMAND` from the `error_t` enum. -/
@[simp] def ERROR_UNKNOWN_COMMAND : Nat := 6
/-- `ERROR_INVALID_PAYLOAD_SIZE` from the `error_t` enum. -/
@[simp] def ERROR_INVALID_PAYLOAD_SIZE : Nat := 7
/-- `ERROR_INVALID_PAGE_NUMBER` from the `error_t` enum. -/
@[simp] def ERROR_INVALID_PAGE_NUMBER : Nat := 8

/-- `COMMAND_PING` from the `command_t` enum. -/
@[simp] def COMMAND_PING : Nat := 0x10
/-- `COMMAND_WRITE` from the `command_t` enum. -/
@[simp] def COMMAND_WRITE : Nat := 0x11
/-- `COMMAND_READ` from the `command_t` enum. -/
@[simp] def COMMAND_READ : Nat := 0x12
/-- `COMMAND_VERIFY` from the `command_t` enum. -/
@[simp] def COMMAND_VERIFY : Nat := 0x13
/-- `COMMAND_QUIT` from the `command_t` enum. -/
@[simp] def COMMAND_QUIT : Nat := 0x14
/-- `REPLY_SUCCESS` from the `command_t` enum. -/
@[simp] def REPLY_SUCCESS : Nat := 0x20
/-- `REPLY_ERROR` from the `command_t` enum. -/
@[simp] def REPLY_ERROR : Nat := 0x21
/-- `REPLY_READ` from the `command_t` enum. -/
@[simp] def REPLY_READ : Nat := 0x22
/-- `REPLY_VERIFY` from the `command_t` enum. -/
@[simp] def REPLY_VERIFY : Nat := 0x23

/-- `NUM_PAGES` as defined in the source: `(FLASHEND + 1) / SPM_PAGESIZE`. -/
def NUM_PAGES (flashEnd pageSize : Nat) : Nat := (flashEnd + 1) / pageSize

/-- The fixed 3-byte message header set by `loop`:
`0x00` (protocol marker), `MIDI_ID = 0x70`, `VERSION = 0x01`. -/
def headerBytes : List Nat := [0x00, 0x70, 0x01]

/-- `sizeof(msg.buffer) = SPM_PAGESIZE + sizeof(page_no) + sizeof(command) + 1`. -/
def bufCapacity (pageSize : Nat) : Nat := pageSize + 3

/-- The `state_t` enum of the parser. -/
inductive PState where
  | idle
  | matchingHeader
  | readingBody
  | expectingEnd
deriving DecidableEq, Repr

/-- An observable action of the device: a reply message (given by its decoded
content, `msg.buffer[0 .. command+params)`, which `send_msg` frames and
nibble-encodes on the wire), or the jump into the resident application that
`COMMAND_QUIT` performs after its success reply. -/
inductive Out where
  | reply (bytes : List Nat)
  | jump
deriving DecidableEq, Repr

/-- The mutable state of the device: the parser state, the local `checksum`
and `bytes_read` counters of `loop`, the global `payload_size`, the message
buffer `msg.buffer` (the `msg.header` is the constant `headerBytes`), and the
flash array (byte-addressed, `NUM_PAGES * SPM_PAGESIZE` bytes). -/
structure Machine where
  st : PState
  checksum : Nat
  bytesRead : Nat
  payloadSize : Nat
  buf : List Nat
  flash : List Nat
deriving DecidableEq, Repr

/-- `reply_error`: stores `REPLY_ERROR` in `msg.command` and the code in
`msg.error` (buffer indices 0 and 1) and sends those two bytes. -/
def reply_error (m : Machine) (e : Nat) : Machine × List Out :=
  ({ m with buf := (m.buf.set 0 REPLY_ERROR).set 1 e }, [Out.reply [REPLY_ERROR, e]])

/-- `reply_success`: stores `REPLY_SUCCESS` in `msg.command` and sends that
single byte. -/
def reply_success (m : Machine) : Machine × List Out :=
  ({ m with buf := m.buf.set 0 REPLY_SUCCESS }, [Out.reply [REPLY_SUCCESS]])

/-- `reply_data(command, data_size)`: stores the reply code in `msg.command`
and sends `msg.buffer[0 .. 1 + data_size)`. -/
def reply_data (m : Machine) (command dataSize : Nat) : Machine × List Out :=
  let b := m.buf.set 0 command
  ({ m with buf := b }, [Out.reply (b.take (1 + dataSize))])

/-- The effect of the `boot_page_fill` loop of `command_write`: bytes are read
in pairs, assembled into a 16-bit little-endian word `w = b0 + (b1 << 8)`, and
the word is stored back as its low byte followed by its high byte. -/
def fillWords : List Nat → List Nat
  | b0 :: b1 :: rest =>
      let w := (b0 % 256 + (b1 % 256) * 256) % 65536
      w % 256 :: w / 256 :: fillWords rest
  | _ => []

/-- `command_write`: erases the page at `msg.page_no * SPM_PAGESIZE` and
programs it from `msg.page_data` (buffer indices `2 .. 2 + SPM_PAGESIZE`)
through the word-wise `boot_page_fill` loop. -/
def command_write (pageSize : Nat) (m : Machine) : Machine :=
  let page := m.buf.getD 1 0 * pageSize
  let data := (m.buf.drop 2).take pageSize
  { m with flash :=
      m.flash.take page ++ fillWords data ++ m.flash.drop (page + pageSize) }

/-- `command_read`: copies the page at `msg.page_no * SPM_PAGESIZE` from flash
into the buffer starting at `&msg.page_no` (buffer index 1). -/
def command_read (pageSize : Nat) (m : Machine) : Machine :=
  let page := m.buf.getD 1 0 * pageSize
  let data := (m.flash.drop page).take pageSize
  { m with buf := m.buf.take 1 ++ data ++ m.buf.drop (1 + pageSize) }

/-- `command_verify`: XORs every byte of the page at
`msg.page_no * SPM_PAGESIZE` into `msg.checksum` (buffer index 1),
starting from 0. -/
def command_verify (pageSize : Nat) (m : Machine) : Machine :=
  let page := m.buf.getD 1 0 * pageSize
  let c := ((m.flash.drop page).take pageSize).foldl Nat.xor 0
  { m with buf := m.buf.set 1 c }

/-- `process_msg`: dispatches on `msg.command` (buffer index 0), with
`payload_size` already reduced to the command parameters only.  Each `CHECK`
failure sends one error reply and stops the command. -/
def process_msg (pageSize numPages : Nat) (m : Machine) : Machine × List Out :=
  let cmd := m.buf.getD 0 0
  if cmd = COMMAND_PING then
    if m.payloadSize = 0 then reply_success m
    else reply_error m ERROR_INVALID_PAYLOAD_SIZE
  else if cmd = COMMAND_WRITE then
    if m.payloadSize = pageSize + 1 then
      if m.buf.getD 1 0 < numPages then reply_success (command_write pageSize m)
      else reply_error m ERROR_INVALID_PAGE_NUMBER
    else reply_error m ERROR_INVALID_PAYLOAD_SIZE
  else if cmd = COMMAND_VERIFY then
    if m.payloadSize = 1 then
      if m.buf.getD 1 0 < numPages then
        reply_data (command_verify pageSize m) REPLY_VERIFY 1
      else reply_error m ERROR_INVALID_PAGE_NUMBER
    else reply_error m ERROR_INVALID_PAYLOAD_SIZE
  else if cmd = COMMAND_READ then
    if m.payloadSize = 1 then
      if m.buf.getD 1 0 < numPages then
        reply_data (command_read pageSize m) REPLY_READ pageSize
      else reply_error m ERROR_INVALID_PAGE_NUMBER
    else reply_error m ERROR_INVALID_PAYLOAD_SIZE
  else if cmd = COMMAND_QUIT then
    if m.payloadSize = 0 then
      let r := reply_success m
      (r.1, r.2 ++ [Out.jump])
    else reply_error m ERROR_INVALID_PAYLOAD_SIZE
  else reply_error m ERROR_UNKNOWN_COMMAND

/-- One iteration of the `for(;;)` loop of `loop()`: consume one received
byte, produce the updated device state and the replies sent while handling
this byte. -/
def step (pageSize numPages : Nat) (m : Machine) (b : Nat) : Machine × List Out :=
  if b < 0x80 then
    match m.st with
    | PState.idle => (m, [])
    | PState.matchingHeader =>
        if b ≠ headerBytes.getD m.bytesRead 0 then
          let r := reply_error { m with bytesRead := m.bytesRead + 1 }
            ERROR_HEADER_MISMATCH
          ({ r.1 with st := PState.idle }, r.2)
        else if m.bytesRead + 1 = 3 then
          ({ m with st := PState.readingBody, bytesRead := 0 }, [])
        else
          ({ m with bytesRead := m.bytesRead + 1 }, [])
    | PState.readingBody =>
        if 0xf < b then
          let r := reply_error m ERROR_INVALID_NIBBLE
          ({ r.1 with st := PState.idle }, r.2)
        else
          let m1 :=
            if m.bytesRead % 2 = 1 then
              let v := (m.buf.getD m.payloadSize 0 + b) % 256
              { m with buf := m.buf.set m.payloadSize v,
                       checksum := Nat.xor m.checksum v,
                       payloadSize := m.payloadSize + 1,
                       bytesRead := m.bytesRead + 1 }
            else
              { m with buf := m.buf.set m.payloadSize ((b <<< 4) % 256),
                       bytesRead := m.bytesRead + 1 }
          if m1.payloadSize = bufCapacity pageSize then
            ({ m1 with st := PState.expectingEnd }, [])
          else (m1, [])
    | PState.expectingEnd =>
        let r := reply_error m ERROR_INVALID_PAYLOAD_SIZE
        ({ r.1 with st := PState.idle }, r.2)
  else if b = 0xf0 then
    let r := if m.st ≠ PState.idle
      then reply_error m ERROR_INCOMPLETE_MESSAGE else (m, [])
    ({ r.1 with st := PState.matchingHeader, checksum := 0,
                bytesRead := 0, payloadSize := 0 }, r.2)
  else if b = 0xf7 then
    if m.st = PState.idle then (m, [])
    else if m.st = PState.matchingHeader ∨ m.payloadSize ≤ 1 then
      let r := reply_error m ERROR_INVALID_FORMAT
      ({ r.1 with st := PState.idle }, r.2)
    else if m.checksum ≠ 0 then
      let r := reply_error m ERROR_INVALID_CHECKSUM
      ({ r.1 with st := PState.idle }, r.2)
    else
      let r := process_msg pageSize numPages
        { m with payloadSize := m.payloadSize - 2 }
      ({ r.1 with st := PState.idle }, r.2)
  else (m, [])

/-- Feed a list of received bytes, collecting every reply in order. -/
def run (pageSize numPages : Nat) (m : Machine) : List Nat → Machine × List Out
  | [] => (m, [])
  | b :: rest =>
      let r := step pageSize numPages m b
      let r2 := run pageSize numPages r.1 rest
      (r2.1, r.2 ++ r2.2)

/-- The device state when `loop` starts listening: parser idle, all counters
zero (the globals are zero-initialized; the locals are first used only after
a `0xF0` resets them), the message buffer zeroed, flash as given. -/
def initMachine (pageSize : Nat) (flash : List Nat) : Machine :=
  { st := PState.idle, checksum := 0, bytesRead := 0, payloadSize := 0,
    buf := List.replicate (bufCapacity pageSize) 0, flash := flash }

/-- The nibble expansion performed by `send_msg` on each transmitted payload
byte: high nibble (`byte >> 4`) first, then low nibble (`byte & 0x0f`), on
`uint8_t` values. -/
def encodeNibbles : List Nat → List Nat
  | [] => []
  | b :: rest => b % 256 / 16 :: b % 256 % 16 :: encodeNibbles rest

/-- The nibble reassembly performed by the parser's ReadingBody state: the
first byte of a pair is stored shifted left by 4, the second is added;
a trailing unpaired nibble is not turned into a payload byte. -/
def decodeNibbles : List Nat → List Nat
  | hi :: lo :: rest => ((hi <<< 4) % 256 + lo) % 256 :: decodeNibbles rest
  | _ => []

/-- Modelled from the spec: the bootloader itself resides in flash (its code
runs from the boot section at the top of the address space), so the region
reserved for the resident application excludes a nonempty suffix of the page
range.  Neither the spec nor the sources under src state how many pages the
bootloader occupies, so the minimal nonempty region — one page — is used. -/
def bootReservedPages : Nat := 1

/-- Modelled from the spec: a page number is valid only if
`page_number * page_size` lies within the addressable flash range reserved
for the resident application, i.e. excluding the bootloader's own resident
region at the top of flash. -/
def residentAppPageValid (pageSize flashEnd pageNo : Nat) : Prop :=
  pageNo * pageSize < (NUM_PAGES flashEnd pageSize - bootReservedPages) * pageSize

instance (pageSize flashEnd pageNo : Nat) :
    Decidable (residentAppPageValid pageSize flashEnd pageNo) :=
  inferInstanceAs (Decidable (_ < _))

/-- The frame-finalization rule exactly as the claim words it, for comparison
with the code's `step` at an end delimiter: `InvalidFormat` when the parser
never left MatchingHeader or the decoded payload has fewer bytes than the
one-byte command-code field (`payload_size < 1`); otherwise `InvalidChecksum`
when the running checksum is non-zero; otherwise dispatch (`none`). -/
def claimedFinalizeReply (m : Machine) : Option (List Nat) :=
  if m.st = PState.matchingHeader ∨ m.payloadSize < 1 then
    some [REPLY_ERROR, ERROR_INVALID_FORMAT]
  else if m.checksum ≠ 0 then some [REPLY_ERROR, ERROR_INVALID_CHECKSUM]
  else none

/-- The parser size invariant: while matching the header the payload count
is still zero, and while reading the body it is strictly below the buffer
capacity (reaching the capacity switches the parser to ExpectingEnd). -/
def sizeInv (pageSize : Nat) (m : Machine) : Prop :=
  (m.st = PState.matchingHeader → m.payloadSize = 0)
    ∧ (m.st = PState.readingBody → m.payloadSize < bufCapacity pageSize)

/-- Claim C8: every received byte with the high bit set that is neither the
start delimiter `0xF0` nor the end delimiter `0xF7` is ignored entirely, in
any parser state: the machine is unchanged (nothing is stored into the
payload buffer, compared as a header byte, or XORed into the checksum) and
no reply is sent. -/
theorem highBytesIgnored (pageSize numPages : Nat) (m : Machine) (b : Nat)
    (h1 : 0x80 ≤ b) (h2 : b ≠ 0xf0) (h3 : b ≠ 0xf7) :
    step pageSize numPages m b = (m, []) := by
  unfold step
  have hb : ¬ b < 0x80 := by omega
  simp [hb, h2, h3]

/-- Witness for `highBytesIgnored` at the concrete byte `0x95`. -/
theorem highBytesIgnored_witness :
    step 4 8 (initMachine 4 (List.replicate 32 0)) 0x95
      = (initMachine 4 (List.replicate 32 0), []) :=
  highBytesIgnored 4 8 (initMachine 4 (List.replicate 32 0)) 0x95
    (by decide) (by decide) (by decide)

/-- Claim C7: a start delimiter `0xF0` arriving while a frame is in progress
(state not Idle) emits exactly one `Error(IncompleteMessage)` reply and then
begins the new frame normally: header-match position, checksum and payload
size are reset to zero, the state becomes MatchingHeader, and flash is
untouched. -/
theorem startDelimiterRestart (pageSize numPages : Nat) (m : Machine)
    (h : m.st ≠ PState.idle) :
    (step pageSize numPages m 0xf0).2
        = [Out.reply [REPLY_ERROR, ERROR_INCOMPLETE_MESSAGE]]
      ∧ (step pageSize numPages m 0xf0).1.st = PState.matchingHeader
      ∧ (step pageSize numPages m 0xf0).1.checksum = 0
      ∧ (step pageSize numPages m 0xf0).1.bytesRead = 0
      ∧ (step pageSize numPages m 0xf0).1.payloadSize = 0
      ∧ (step pageSize numPages m 0xf0).1.flash = m.flash := by
  unfold step reply_error
  simp [h]

/-- Witness for `startDelimiterRestart`: the second of two consecutive `0xF0`
bytes is reported as `IncompleteMessage` and parsing restarts. -/
theorem startDelimiterRestart_witness :
    (step 4 8 { initMachine 4 [] with st := PState.matchingHeader } 0xf0).2
        = [Out.reply [REPLY_ERROR, ERROR_INCOMPLETE_MESSAGE]]
      ∧ (step 4 8 { initMachine 4 [] with st := PState.matchingHeader } 0xf0).1.st
        = PState.matchingHeader
      ∧ (step 4 8 { initMachine 4 [] with st := PState.matchingHeader } 0xf0).1.checksum = 0
      ∧ (step 4 8 { initMachine 4 [] with st := PState.matchingHeader } 0xf0).1.bytesRead = 0
      ∧ (step 4 8 { initMachine 4 [] with st := PState.matchingHeader } 0xf0).1.payloadSize = 0
      ∧ (step 4 8 { initMachine 4 [] with st := PState.matchingHeader } 0xf0).1.flash
        = ({ initMachine 4 [] with st := PState.matchingHeader } : Machine).flash :=
  startDelimiterRestart 4 8 _ (by decide)

/-- Claim C2: a Write request that fails validation sends exactly one Error
reply with the specific code and never reaches the flash erase/program
operation, so flash is unchanged; the size check runs first (a wrong payload
size yields `InvalidPayloadSize` regardless of the page number), the range
check second, and `command_write` runs exactly when both pass. -/
theorem writeValidatesBeforeFlash (pageSize numPages : Nat) (m : Machine)
    (hcmd : m.buf.getD 0 0 = COMMAND_WRITE) :
    (m.payloadSize ≠ pageSize + 1 →
        (process_msg pageSize numPages m).2
            = [Out.reply [REPLY_ERROR, ERROR_INVALID_PAYLOAD_SIZE]]
          ∧ (process_msg pageSize numPages m).1.flash = m.flash)
      ∧ (m.payloadSize = pageSize + 1 → numPages ≤ m.buf.getD 1 0 →
          (process_msg pageSize numPages m).2
              = [Out.reply [REPLY_ERROR, ERROR_INVALID_PAGE_NUMBER]]
            ∧ (process_msg pageSize numPages m).1.flash = m.flash)
      ∧ (m.payloadSize = pageSize + 1 → m.buf.getD 1 0 < numPages →
          process_msg pageSize numPages m
            = reply_success (command_write pageSize m)) := by
  have h0 : m.buf[0]?.getD 0 = 17 := by
    simpa [COMMAND_WRITE, List.getD_eq_getElem?_getD] using hcmd
  refine ⟨fun hsz => ?_, fun hsz hpn => ?_, fun hsz hpn => ?_⟩
  · unfold process_msg reply_error
    simp [List.getD_eq_getElem?_getD, h0, hsz]
  · have h1 : ¬ m.buf[1]?.getD 0 < numPages := by
      simpa [List.getD_eq_getElem?_getD] using Nat.not_lt.mpr hpn
    unfold process_msg reply_error
    simp [List.getD_eq_getElem?_getD, h0, hsz, h1]
  · have h1 : m.buf[1]?.getD 0 < numPages := by
      simpa [List.getD_eq_getElem?_getD] using hpn
    unfold process_msg reply_success
    simp [List.getD_eq_getElem?_getD, h0, hsz, h1]

/-- Witness for `writeValidatesBeforeFlash` at a concrete short Write
request (payload one byte short of pageSize + 1): `InvalidPayloadSize` and
untouched flash. -/
theorem writeValidatesBeforeFlash_witness :
    (process_msg 4 8
        { st := PState.idle, checksum := 0, bytesRead := 0, payloadSize := 4,
          buf := [0x11, 2, 9, 9, 9, 0, 0], flash := List.replicate 32 7 }).2
        = [Out.reply [REPLY_ERROR, ERROR_INVALID_PAYLOAD_SIZE]]
      ∧ (process_msg 4 8
        { st := PState.idle, checksum := 0, bytesRead := 0, payloadSize := 4,
          buf := [0x11, 2, 9, 9, 9, 0, 0], flash := List.replicate 32 7 }).1.flash
        = List.replicate 32 7 :=
  (writeValidatesBeforeFlash 4 8 _ (by decide)).1 (by decide)

/-- Counterexample to claim C1 as stated: with `SPM_PAGESIZE = 4` and
`FLASHEND = 31` (so `NUM_PAGES = 8`), a Verify request for page 7 — the last
page of flash, which lies inside the bootloader's own reserved region — is
accepted and answered with a `REPLY_VERIFY` data reply, although
`7 * page_size` does not lie within the flash range reserved for the
resident application.  So "accepted iff within the resident-application
range" is false: the code checks only `page_no < NUM_PAGES`, the full flash
range. -/
theorem pageCheckCoversFullFlash_counterexample :
    (run 4 (NUM_PAGES 31 4) (initMachine 4 (List.replicate 32 0))
        [0xf0, 0x00, 0x70, 0x01, 1, 3, 0, 7, 1, 4, 0xf7]).2
      = [Out.reply [REPLY_VERIFY, 0]]
    ∧ ¬ residentAppPageValid 4 31 7 := by decide

/-- Claim C1 (amended): for Write, Read and Verify requests whose payload
size is correct, the page number is accepted if and only if it is below
`NUM_PAGES = (FLASHEND + 1) / SPM_PAGESIZE` — i.e. iff
`page_number * page_size` lies within the full flash range, including the
bootloader's own resident region; in particular `pageNumber = NUM_PAGES - 1`
succeeds and `pageNumber = NUM_PAGES` is rejected with
`Error(InvalidPageNumber)`. -/
theorem pageCheckCoversFullFlash (pageSize flashEnd : Nat) (m : Machine)
    (hbuf : m.buf.length = bufCapacity pageSize) :
    (m.buf.getD 0 0 = COMMAND_WRITE → m.payloadSize = pageSize + 1 →
        ((process_msg pageSize (NUM_PAGES flashEnd pageSize) m).2
            = [Out.reply [REPLY_ERROR, ERROR_INVALID_PAGE_NUMBER]]
          ↔ NUM_PAGES flashEnd pageSize ≤ m.buf.getD 1 0))
      ∧ (m.buf.getD 0 0 = COMMAND_READ → m.payloadSize = 1 →
          ((process_msg pageSize (NUM_PAGES flashEnd pageSize) m).2
              = [Out.reply [REPLY_ERROR, ERROR_INVALID_PAGE_NUMBER]]
            ↔ NUM_PAGES flashEnd pageSize ≤ m.buf.getD 1 0))
      ∧ (m.buf.getD 0 0 = COMMAND_VERIFY → m.payloadSize = 1 →
          ((process_msg pageSize (NUM_PAGES flashEnd pageSize) m).2
              = [Out.reply [REPLY_ERROR, ERROR_INVALID_PAGE_NUMBER]]
            ↔ NUM_PAGES flashEnd pageSize ≤ m.buf.getD 1 0))
      ∧ (m.buf.getD 0 0 = COMMAND_WRITE → m.payloadSize = pageSize + 1 →
          m.buf.getD 1 0 + 1 = NUM_PAGES flashEnd pageSize →
          (process_msg pageSize (NUM_PAGES flashEnd pageSize) m).2
            = [Out.reply [REPLY_SUCCESS]]) := by
  obtain ⟨st, cs, br, psz, buf, fl⟩ := m
  simp only at hbuf ⊢
  obtain ⟨a, b, rest, rfl⟩ : ∃ a b rest, buf = a :: b :: rest := by
    match buf, hbuf with
    | [], hbuf => simp [bufCapacity] at hbuf
    | [a], hbuf => simp [bufCapacity] at hbuf
    | a :: b :: rest, _ => exact ⟨a, b, rest, rfl⟩
  refine ⟨fun hcmd hsz => ?_, fun hcmd hsz => ?_, fun hcmd hsz => ?_,
    fun hcmd hsz hlast => ?_⟩ <;>
    simp only [List.getD_cons_zero, List.getD_cons_succ] at hcmd hsz ⊢ <;>
    subst hcmd
  · by_cases hlt : b < NUM_PAGES flashEnd pageSize
    · unfold process_msg reply_success
      simp [hsz, hlt, Nat.not_le.mpr hlt]
    · unfold process_msg reply_error
      simp [hsz, hlt, Nat.not_lt.mp hlt]
  · by_cases hlt : b < NUM_PAGES flashEnd pageSize
    · unfold process_msg reply_data command_read
      simp [hsz, hlt, Nat.not_le.mpr hlt, Nat.add_comm 1 pageSize,
        List.take_succ_cons]
    · unfold process_msg reply_error
      simp [hsz, hlt, Nat.not_lt.mp hlt]
  · by_cases hlt : b < NUM_PAGES flashEnd pageSize
    · unfold process_msg reply_data command_verify
      simp [hsz, hlt, Nat.not_le.mpr hlt]
    · unfold process_msg reply_error
      simp [hsz, hlt, Nat.not_lt.mp hlt]
  · simp only [List.getD_cons_succ, List.getD_cons_zero] at hlast
    have hlt : b < NUM_PAGES flashEnd pageSize := by omega
    unfold process_msg reply_success
    simp [hsz, hlt]

/-- Witness for `pageCheckCoversFullFlash` at a concrete Write request for
the boundary pages 7 (accepted) and 8 (rejected), with
`NUM_PAGES 31 4 = 8`. -/
theorem pageCheckCoversFullFlash_witness :
    ((process_msg 4 (NUM_PAGES 31 4)
          { st := PState.idle, checksum := 0, bytesRead := 0, payloadSize := 5,
            buf := [0x11, 8, 1, 2, 3, 4, 0], flash := List.replicate 32 0 }).2
        = [Out.reply [REPLY_ERROR, ERROR_INVALID_PAGE_NUMBER]]
      ↔ NUM_PAGES 31 4 ≤ 8)
    ∧ (process_msg 4 (NUM_PAGES 31 4)
          { st := PState.idle, checksum := 0, bytesRead := 0, payloadSize := 5,
            buf := [0x11, 7, 1, 2, 3, 4, 0], flash := List.replicate 32 0 }).2
        = [Out.reply [REPLY_SUCCESS]] :=
  ⟨(pageCheckCoversFullFlash 4 31
      { st := PState.idle, checksum := 0, bytesRead := 0, payloadSize := 5,
        buf := [0x11, 8, 1, 2, 3, 4, 0], flash := List.replicate 32 0 }
      (by decide)).1 (by decide) (by decide),
   (pageCheckCoversFullFlash 4 31
      { st := PState.idle, checksum := 0, bytesRead := 0, payloadSize := 5,
        buf := [0x11, 7, 1, 2, 3, 4, 0], flash := List.replicate 32 0 }
      (by decide)).2.2.2 (by decide) (by decide) (by decide)⟩

/-- Counterexample to claim C4 as stated: feed the frame
`F0 00 70 01 00 01` (header followed by the nibbles `0, 1`).  The parser is
in ReadingBody with exactly one decoded payload byte (`0x01`) and running
checksum `1`.  The decoded payload does not have fewer bytes than the
command-code field, and the checksum is non-zero, so the claimed rule
predicts `Error(InvalidChecksum)`; the code, which tests
`payload_size <= sizeof(msg.command)`, replies `Error(InvalidFormat)`. -/
theorem finalizeBoundary_counterexample :
    (step 4 8 ((run 4 8 (initMachine 4 (List.replicate 32 0))
          [0xf0, 0x00, 0x70, 0x01, 0x00, 0x01]).1) 0xf7).2
        = [Out.reply [REPLY_ERROR, ERROR_INVALID_FORMAT]]
      ∧ claimedFinalizeReply ((run 4 8 (initMachine 4 (List.replicate 32 0))
          [0xf0, 0x00, 0x70, 0x01, 0x00, 0x01]).1)
        = some [REPLY_ERROR, ERROR_INVALID_CHECKSUM]
      ∧ ((run 4 8 (initMachine 4 (List.replicate 32 0))
          [0xf0, 0x00, 0x70, 0x01, 0x00, 0x01]).1).payloadSize = 1 := by
  decide

/-- Claim C4 (amended): when the end delimiter `0xF7` arrives while a frame
is in progress, finalization proceeds exactly as: if the parser never left
MatchingHeader or the decoded payload has *no more* bytes than the
command-code field (`payload_size <= 1`, too few to also hold the checksum
byte), the result is `Error(InvalidFormat)`; otherwise if the running XOR
checksum over every decoded payload byte is non-zero, the result is
`Error(InvalidChecksum)`; otherwise the payload size handed to the command
dispatcher is the decoded byte count minus the command byte and the checksum
byte, and the message is dispatched; in all three cases the parser returns
to Idle. -/
theorem finalizeAtEndDelimiter (pageSize numPages : Nat) (m : Machine)
    (h : m.st ≠ PState.idle) :
    (m.st = PState.matchingHeader ∨ m.payloadSize ≤ 1 →
        (step pageSize numPages m 0xf7).2
            = [Out.reply [REPLY_ERROR, ERROR_INVALID_FORMAT]]
          ∧ (step pageSize numPages m 0xf7).1.st = PState.idle)
      ∧ (¬ (m.st = PState.matchingHeader ∨ m.payloadSize ≤ 1) →
          m.checksum ≠ 0 →
          (step pageSize numPages m 0xf7).2
              = [Out.reply [REPLY_ERROR, ERROR_INVALID_CHECKSUM]]
            ∧ (step pageSize numPages m 0xf7).1.st = PState.idle)
      ∧ (¬ (m.st = PState.matchingHeader ∨ m.payloadSize ≤ 1) →
          m.checksum = 0 →
          step pageSize numPages m 0xf7
            = ({ (process_msg pageSize numPages
                    { m with payloadSize := m.payloadSize - 2 }).1
                  with st := PState.idle },
               (process_msg pageSize numPages
                  { m with payloadSize := m.payloadSize - 2 }).2)) := by
  refine ⟨fun hfmt => ?_, fun hfmt hck => ?_, fun hfmt hck => ?_⟩
  · unfold step reply_error
    simp [h, hfmt]
  · unfold step reply_error
    simp [h, hfmt, hck]
  · unfold step
    simp [h, hfmt, hck]

/-- Witness for `finalizeAtEndDelimiter`: a ReadingBody state with payload
size 2 and zero checksum dispatches with payload size 0. -/
theorem finalizeAtEndDelimiter_witness :
    step 4 8
        { st := PState.readingBody, checksum := 0, bytesRead := 4,
          payloadSize := 2, buf := [0x10, 0x10, 0, 0, 0, 0, 0],
          flash := List.replicate 32 0 } 0xf7
      = ({ (process_msg 4 8
              { st := PState.readingBody, checksum := 0, bytesRead := 4,
                payloadSize := 0, buf := [0x10, 0x10, 0, 0, 0, 0, 0],
                flash := List.replicate 32 0 }).1 with st := PState.idle },
         (process_msg 4 8
            { st := PState.readingBody, checksum := 0, bytesRead := 4,
              payloadSize := 0, buf := [0x10, 0x10, 0, 0, 0, 0, 0],
              flash := List.replicate 32 0 }).2) :=
  (finalizeAtEndDelimiter 4 8
      { st := PState.readingBody, checksum := 0, bytesRead := 4,
        payloadSize := 2, buf := [0x10, 0x10, 0, 0, 0, 0, 0],
        flash := List.replicate 32 0 } (by decide)).2.2 (by decide) rfl

/-- Claim C3: each malformed-frame condition — header byte mismatch in
MatchingHeader, a data byte above `0x0F` in ReadingBody, an end delimiter on
a frame whose decoded payload is empty (too short to contain the command
byte) or that never left MatchingHeader, and a non-zero running checksum at
the end delimiter of a frame long enough to reach the checksum test —
produces exactly one Error reply with the corresponding specific code
(HeaderMismatch, InvalidNibble, InvalidFormat, InvalidChecksum) and returns
the parser to Idle; no error is silently dropped. -/
theorem malformedFrameErrors (pageSize numPages : Nat) (m : Machine) (b : Nat) :
    (m.st = PState.matchingHeader → b < 0x80 →
        b ≠ headerBytes.getD m.bytesRead 0 →
        (step pageSize numPages m b).2
            = [Out.reply [REPLY_ERROR, ERROR_HEADER_MISMATCH]]
          ∧ (step pageSize numPages m b).1.st = PState.idle)
      ∧ (m.st = PState.readingBody → b < 0x80 → 0xf < b →
          (step pageSize numPages m b).2
              = [Out.reply [REPLY_ERROR, ERROR_INVALID_NIBBLE]]
            ∧ (step pageSize numPages m b).1.st = PState.idle)
      ∧ (b = 0xf7 → m.st ≠ PState.idle →
          m.st = PState.matchingHeader ∨ m.payloadSize = 0 →
          (step pageSize numPages m b).2
              = [Out.reply [REPLY_ERROR, ERROR_INVALID_FORMAT]]
            ∧ (step pageSize numPages m b).1.st = PState.idle)
      ∧ (b = 0xf7 → m.st ≠ PState.idle → m.st ≠ PState.matchingHeader →
          1 < m.payloadSize → m.checksum ≠ 0 →
          (step pageSize numPages m b).2
              = [Out.reply [REPLY_ERROR, ERROR_INVALID_CHECKSUM]]
            ∧ (step pageSize numPages m b).1.st = PState.idle) := by
  refine ⟨fun hst hb hne => ?_, fun hst hb hnib => ?_,
    fun hb hne hcond => ?_, fun hb hne hmh hps hck => ?_⟩
  · have hne' : ¬ b = headerBytes[m.bytesRead]?.getD 0 := by
      simpa [List.getD_eq_getElem?_getD] using hne
    unfold step reply_error
    simp [hst, hb, hne']
  · unfold step reply_error
    simp [hst, hb, Nat.not_lt.mpr (Nat.succ_le_of_lt hnib), hnib]
  · subst hb
    have hfmt : m.st = PState.matchingHeader ∨ m.payloadSize ≤ 1 := by
      rcases hcond with h1 | h1
      · exact Or.inl h1
      · exact Or.inr (by omega)
    unfold step reply_error
    simp [hne, hfmt]
  · subst hb
    have hfmt : ¬ (m.st = PState.matchingHeader ∨ m.payloadSize ≤ 1) := by
      rintro (h1 | h1)
      · exact hmh h1
      · omega
    unfold step reply_error
    simp [hne, hfmt, hck]

/-- Witness for `malformedFrameErrors`: a header mismatch on the second
header byte. -/
theorem malformedFrameErrors_witness :
    (step 4 8
        { st := PState.matchingHeader, checksum := 0, bytesRead := 1,
          payloadSize := 0, buf := List.replicate 7 0,
          flash := List.replicate 32 0 } 0x05).2
        = [Out.reply [REPLY_ERROR, ERROR_HEADER_MISMATCH]]
      ∧ (step 4 8
        { st := PState.matchingHeader, checksum := 0, bytesRead := 1,
          payloadSize := 0, buf := List.replicate 7 0,
          flash := List.replicate 32 0 } 0x05).1.st = PState.idle :=
  (malformedFrameErrors 4 8
      { st := PState.matchingHeader, checksum := 0, bytesRead := 1,
        payloadSize := 0, buf := List.replicate 7 0,
        flash := List.replicate 32 0 } 0x05).1 rfl (by decide) (by decide)

/-- Claim C5: the nibble codec round-trips — reassembling
high-nibble-first pairs exactly as the parser's ReadingBody state does,
applied to the nibble expansion produced by `send_msg`, yields the original
payload; and the nibble expansion of every payload has even length, so the
side condition of the round-trip law always holds. -/
theorem nibbleCodecRoundTrip (p : List Nat) (h : ∀ b ∈ p, b < 256) :
    decodeNibbles (encodeNibbles p) = p
      ∧ (encodeNibbles p).length % 2 = 0 := by
  induction p with
  | nil => simp [encodeNibbles, decodeNibbles]
  | cons b rest ih =>
    have hb : b < 256 := h b (List.mem_cons_self b rest)
    have ih' := ih (fun x hx => h x (List.mem_cons_of_mem b hx))
    constructor
    · simp only [encodeNibbles, decodeNibbles, ih'.1, List.cons.injEq]
      refine ⟨?_, trivial⟩
      rw [Nat.shiftLeft_eq]
      have h16 : (2 : Nat) ^ 4 = 16 := by norm_num
      rw [h16]
      omega
    · simp only [encodeNibbles, List.length_cons]
      omega

/-- Witness for `nibbleCodecRoundTrip` at the concrete payload
`[0x12, 0xAB, 0x00, 0xFF]`. -/
theorem nibbleCodecRoundTrip_witness :
    decodeNibbles (encodeNibbles [0x12, 0xAB, 0x00, 0xFF])
        = [0x12, 0xAB, 0x00, 0xFF]
      ∧ (encodeNibbles [0x12, 0xAB, 0x00, 0xFF]).length % 2 = 0 :=
  nibbleCodecRoundTrip [0x12, 0xAB, 0x00, 0xFF] (by decide)

/-- The word-wise `boot_page_fill` loop reproduces its input: for a byte
list of even length whose entries fit in a byte, splitting into 16-bit
words and storing low byte then high byte is the identity. -/
theorem fillWords_eq_self :
    ∀ l : List Nat, l.length % 2 = 0 → (∀ b ∈ l, b < 256) → fillWords l = l
  | [], _, _ => by simp [fillWords]
  | [b], h, _ => by simp at h
  | b0 :: b1 :: rest, h2, hb => by
      have h0 : b0 < 256 := hb b0 (by simp)
      have h1 : b1 < 256 := hb b1 (by simp)
      have ih := fillWords_eq_self rest
        (by simp only [List.length_cons] at h2; omega)
        (fun x hx => hb x (by simp [hx]))
      simp only [fillWords, ih, List.cons.injEq]
      refine ⟨by omega, by omega, trivial⟩

/-- Claim C6: after a valid Write of one page of data to an in-range page,
a Read request for the same page replies with exactly the written bytes,
and a Verify request for the same page replies with the single-byte XOR of
those bytes (flash modelled by the erase-and-program / read / checksum
primitives of `command_write`, `command_read`, `command_verify`). -/
theorem writeReadVerifyRoundTrip (pageSize numPages : Nat) (flash : List Nat)
    (p : Nat) (data : List Nat)
    (heven : pageSize % 2 = 0) (hlen : data.length = pageSize)
    (hdata : ∀ b ∈ data, b < 256) (hp : p < numPages)
    (hflash : flash.length = numPages * pageSize) :
    (process_msg pageSize numPages
        { st := PState.idle, checksum := 0, bytesRead := 0,
          payloadSize := pageSize + 1, buf := COMMAND_WRITE :: p :: data,
          flash := flash }).2 = [Out.reply [REPLY_SUCCESS]]
    ∧ (process_msg pageSize numPages
        { st := PState.idle, checksum := 0, bytesRead := 0, payloadSize := 1,
          buf := COMMAND_READ :: p :: data,
          flash := (process_msg pageSize numPages
            { st := PState.idle, checksum := 0, bytesRead := 0,
              payloadSize := pageSize + 1, buf := COMMAND_WRITE :: p :: data,
              flash := flash }).1.flash }).2
      = [Out.reply (REPLY_READ :: data)]
    ∧ (process_msg pageSize numPages
        { st := PState.idle, checksum := 0, bytesRead := 0, payloadSize := 1,
          buf := COMMAND_VERIFY :: p :: data,
          flash := (process_msg pageSize numPages
            { st := PState.idle, checksum := 0, bytesRead := 0,
              payloadSize := pageSize + 1, buf := COMMAND_WRITE :: p :: data,
              flash := flash }).1.flash }).2
      = [Out.reply [REPLY_VERIFY, data.foldl Nat.xor 0]] := by
  have hple : p * pageSize ≤ flash.length := by
    rw [hflash]
    exact Nat.mul_le_mul_right pageSize (le_of_lt hp)
  have hA : (flash.take (p * pageSize)).length = p * pageSize := by
    rw [List.length_take]
    omega
  have hfill : fillWords data = data :=
    fillWords_eq_self data (by rw [hlen]; exact heven) hdata
  have hkey : (process_msg pageSize numPages
      { st := PState.idle, checksum := 0, bytesRead := 0,
        payloadSize := pageSize + 1, buf := COMMAND_WRITE :: p :: data,
        flash := flash }).1.flash
      = flash.take (p * pageSize) ++ data
          ++ flash.drop (p * pageSize + pageSize) := by
    unfold process_msg reply_success command_write
    simp [hp, hfill, ← hlen]
  have hdrop : (flash.take (p * pageSize)
      ++ (data ++ flash.drop (p * pageSize + pageSize))).drop (p * pageSize)
      = data ++ flash.drop (p * pageSize + pageSize) := List.drop_left' hA
  refine ⟨?_, ?_, ?_⟩
  · unfold process_msg reply_success command_write
    simp [hp]
  · rw [hkey]
    unfold process_msg reply_data command_read
    simp only [List.getD_cons_zero, List.getD_cons_succ]
    simp [hp, hdrop, Nat.add_comm 1 pageSize, List.take_succ_cons,
      List.take_left' hlen]
  · rw [hkey]
    unfold process_msg reply_data command_verify
    simp only [List.getD_cons_zero, List.getD_cons_succ]
    simp [hp, hdrop, List.take_left' hlen]

/-- Witness for `writeReadVerifyRoundTrip`: page 1 of a 2-page, 4-byte-page
flash, written with `[1, 2, 3, 4]`. -/
theorem writeReadVerifyRoundTrip_witness :
    (4 % 2 = 0)
    ∧ (process_msg 4 2
        { st := PState.idle, checksum := 0, bytesRead := 0, payloadSize := 5,
          buf := COMMAND_WRITE :: 1 :: [1, 2, 3, 4],
          flash := List.replicate 8 0 }).2 = [Out.reply [REPLY_SUCCESS]]
    ∧ (process_msg 4 2
        { st := PState.idle, checksum := 0, bytesRead := 0, payloadSize := 1,
          buf := COMMAND_READ :: 1 :: [1, 2, 3, 4],
          flash := (process_msg 4 2
            { st := PState.idle, checksum := 0, bytesRead := 0,
              payloadSize := 5, buf := COMMAND_WRITE :: 1 :: [1, 2, 3, 4],
              flash := List.replicate 8 0 }).1.flash }).2
      = [Out.reply (REPLY_READ :: [1, 2, 3, 4])]
    ∧ (process_msg 4 2
        { st := PState.idle, checksum := 0, bytesRead := 0, payloadSize := 1,
          buf := COMMAND_VERIFY :: 1 :: [1, 2, 3, 4],
          flash := (process_msg 4 2
            { st := PState.idle, checksum := 0, bytesRead := 0,
              payloadSize := 5, buf := COMMAND_WRITE :: 1 :: [1, 2, 3, 4],
              flash := List.replicate 8 0 }).1.flash }).2
      = [Out.reply [REPLY_VERIFY, [1, 2, 3, 4].foldl Nat.xor 0]] :=
  ⟨by decide,
    writeReadVerifyRoundTrip 4 2 (List.replicate 8 0) 1 [1, 2, 3, 4]
      (by decide) (by decide) (by decide) (by decide) (by decide)⟩

/-- `sizeInv` is preserved by every parser step. -/
theorem sizeInv_step (pageSize numPages : Nat) (m : Machine) (b : Nat)
    (h : sizeInv pageSize m) :
    sizeInv pageSize (step pageSize numPages m b).1 := by
  obtain ⟨st, cs, br, ps, buf, fl⟩ := m
  obtain ⟨h1, h2⟩ := h
  simp only at h1 h2
  by_cases hb : b < 0x80
  · cases st with
    | idle => simp [step, hb, sizeInv]
    | matchingHeader =>
        have hps : ps = 0 := h1 rfl
        subst hps
        unfold step sizeInv
        simp only [hb, if_true, if_pos]
        split_ifs <;> simp [bufCapacity]
    | readingBody =>
        have hlt : ps < bufCapacity pageSize := h2 rfl
        unfold step sizeInv
        simp only [hb, if_true, if_pos]
        split_ifs <;> simp_all
        all_goals omega
    | expectingEnd => simp [step, hb, sizeInv]
  · unfold step sizeInv
    by_cases hf0 : b = 0xf0
    · simp [hb, hf0]
    · by_cases hf7 : b = 0xf7
      · subst hf7
        simp only [hb, if_false, if_pos, if_neg]
        split_ifs <;> simp_all
      · simp only [hb, hf0, hf7, if_false, if_neg, not_false_eq_true]
        exact ⟨h1, h2⟩

/-- `sizeInv` is preserved by any sequence of received bytes. -/
theorem sizeInv_run (pageSize numPages : Nat) (m : Machine) (bs : List Nat)
    (h : sizeInv pageSize m) :
    sizeInv pageSize (run pageSize numPages m bs).1 := by
  induction bs generalizing m with
  | nil => simpa [run] using h
  | cons b rest ih =>
      simp only [run]
      exact ih (step pageSize numPages m b).1 (sizeInv_step pageSize numPages m b h)

/-- Claim C9: after any sequence of received bytes from the initial state,
whenever the parser is in ReadingBody the payload count — the index of the
next `msg.buffer` write — is strictly below the buffer capacity
`SPM_PAGESIZE + 3`; and when the parser is in ExpectingEnd, a further data
byte is answered with `Error(InvalidPayloadSize)` and is not stored: the
payload count is unchanged, the buffer changes only by the error reply's
own two-byte header assignment, and the parser aborts to Idle. -/
theorem parserNeverOverflowsBuffer (pageSize numPages : Nat)
    (flash : List Nat) (bytes : List Nat) :
    ((run pageSize numPages (initMachine pageSize flash) bytes).1.st
        = PState.readingBody →
      (run pageSize numPages (initMachine pageSize flash) bytes).1.payloadSize
        < bufCapacity pageSize)
    ∧ ∀ b < 0x80,
        (run pageSize numPages (initMachine pageSize flash) bytes).1.st
          = PState.expectingEnd →
        (step pageSize numPages
            (run pageSize numPages (initMachine pageSize flash) bytes).1 b).2
            = [Out.reply [REPLY_ERROR, ERROR_INVALID_PAYLOAD_SIZE]]
          ∧ (step pageSize numPages
              (run pageSize numPages (initMachine pageSize flash) bytes).1
              b).1.payloadSize
            = (run pageSize numPages (initMachine pageSize flash)
                bytes).1.payloadSize
          ∧ (step pageSize numPages
              (run pageSize numPages (initMachine pageSize flash) bytes).1
              b).1.buf
            = (((run pageSize numPages (initMachine pageSize flash)
                  bytes).1.buf.set 0 REPLY_ERROR).set 1
                ERROR_INVALID_PAYLOAD_SIZE)
          ∧ (step pageSize numPages
              (run pageSize numPages (initMachine pageSize flash) bytes).1
              b).1.st
            = PState.idle := by
  have hinv : sizeInv pageSize
      (run pageSize numPages (initMachine pageSize flash) bytes).1 :=
    sizeInv_run pageSize numPages (initMachine pageSize flash) bytes
      (by simp [sizeInv, initMachine])
  refine ⟨hinv.2, fun b hb hst => ?_⟩
  unfold step reply_error
  simp [hb, hst]

/-- Witness for `parserNeverOverflowsBuffer`: after the header of a frame
the parser is in ReadingBody with payload count 0 < 7, and after 14 data
nibbles (filling the 7-byte buffer of a 4-byte page) a further data byte is
rejected with `InvalidPayloadSize`. -/
theorem parserNeverOverflowsBuffer_witness :
    ((run 4 8 (initMachine 4 (List.replicate 32 0))
          [0xf0, 0x00, 0x70, 0x01]).1.st = PState.readingBody →
        (run 4 8 (initMachine 4 (List.replicate 32 0))
          [0xf0, 0x00, 0x70, 0x01]).1.payloadSize < bufCapacity 4)
      ∧ (step 4 8
          (run 4 8 (initMachine 4 (List.replicate 32 0))
            ([0xf0, 0x00, 0x70, 0x01] ++ List.replicate 14 0)).1 0).2
        = [Out.reply [REPLY_ERROR, ERROR_INVALID_PAYLOAD_SIZE]] :=
  ⟨(parserNeverOverflowsBuffer 4 8 (List.replicate 32 0)
      [0xf0, 0x00, 0x70, 0x01]).1,
   ((parserNeverOverflowsBuffer 4 8 (List.replicate 32 0)
      ([0xf0, 0x00, 0x70, 0x01] ++ List.replicate 14 0)).2 0 (by decide)
      (by decide)).1⟩

/-- Dispatching is insensitive to a stale buffer byte at an index at or
beyond 2 that no accepted command reads: with the Write size check bound to
fail (`q ≠ pageSize + 1`), the reply contents and the resulting flash of
`process_msg` do not depend on a `set` at such an index, nor on the
`bytes_read` counter. -/
theorem process_msg_ignores_high_set (pageSize numPages : Nat) (st : PState)
    (cs br br2 q : Nat) (buf fl : List Nat) (i v : Nat)
    (hi : 2 ≤ i) (hbuflen : buf.length = pageSize + 3)
    (hfl : fl.length = numPages * pageSize) (hnw : q ≠ pageSize + 1) :
    (process_msg pageSize numPages
        { st := st, checksum := cs, bytesRead := br2, payloadSize := q,
          buf := buf.set i v, flash := fl }).2
      = (process_msg pageSize numPages
          { st := st, checksum := cs, bytesRead := br, payloadSize := q,
            buf := buf, flash := fl }).2
    ∧ (process_msg pageSize numPages
        { st := st, checksum := cs, bytesRead := br2, payloadSize := q,
          buf := buf.set i v, flash := fl }).1.flash
      = (process_msg pageSize numPages
          { st := st, checksum := cs, bytesRead := br, payloadSize := q,
            buf := buf, flash := fl }).1.flash := by
  have hg0 : (buf.set i v).getD 0 0 = buf.getD 0 0 := by
    simp [List.getD_eq_getElem?_getD, List.getElem?_set_ne (by omega : i ≠ 0)]
  have hg1 : (buf.set i v).getD 1 0 = buf.getD 1 0 := by
    simp [List.getD_eq_getElem?_getD, List.getElem?_set_ne (by omega : i ≠ 1)]
  have ht1 : (buf.set i v).take 1 = buf.take 1 := by
    rw [List.set_take]
    exact List.set_eq_of_length_le
      (le_trans (List.length_take_le 1 buf) (by omega))
  have ht2 : (buf.set i v).take 2 = buf.take 2 := by
    rw [List.set_take]
    exact List.set_eq_of_length_le
      (le_trans (List.length_take_le 2 buf) (by omega))
  have hreadKey : ∀ sl : List Nat, sl.length = pageSize →
      ∀ tail : List Nat,
      ((buf.take 1 ++ (sl ++ tail)).set 0 REPLY_READ).take (1 + pageSize)
        = (buf.take 1).set 0 REPLY_READ ++ sl := by
    intro sl hsl tail
    have hlen1 : (buf.take 1).length = 1 := by
      rw [List.length_take]
      omega
    rw [List.set_append_left _ _ (by omega)]
    rw [← List.append_assoc]
    exact List.take_left' (by simp [hlen1, hsl])
  have hrk : ∀ sl : List Nat, sl.length = pageSize →
      ∀ tail : List Nat,
      List.take (1 + pageSize) ((List.take 1 buf ++ (sl ++ tail)).set 0 34)
        = (List.take 1 buf).set 0 34 ++ sl := by
    simpa using hreadKey
  unfold process_msg reply_error reply_success reply_data command_write
    command_read command_verify
  simp only [List.getD_eq_getElem?_getD] at hg0 hg1
  by_cases hc16 : buf[0]?.getD 0 = 16
  · by_cases hq0 : q = 0 <;> simp [hg0, hc16, hq0]
  by_cases hc17 : buf[0]?.getD 0 = 17
  · simp [hg0, hc16, hc17, hnw]
  by_cases hc19 : buf[0]?.getD 0 = 19
  · by_cases hq1 : q = 1
    · by_cases hpn : buf[1]?.getD 0 < numPages
      · refine ⟨?_, by simp [hg0, hg1, hc16, hc17, hc19, hq1, hpn]⟩
        simp only [hg0, hg1, hc16, hc17, hc19, hq1, hpn]
        simp only [List.getD_eq_getElem?_getD, hg0, hg1]
        simp [hc16, hc17, hc19, hq1, hpn, List.set_take, ht2]
      · simp [hg0, hg1, hc16, hc17, hc19, hq1, hpn]
    · simp [hg0, hc16, hc17, hc19, hq1]
  by_cases hc18 : buf[0]?.getD 0 = 18
  · by_cases hq1 : q = 1
    · by_cases hpn : buf[1]?.getD 0 < numPages
      · have hsl : ((fl.drop (buf[1]?.getD 0 * pageSize)).take pageSize).length
            = pageSize := by
          rw [List.length_take, List.length_drop, hfl]
          have hm : buf[1]?.getD 0 * pageSize + pageSize
              ≤ numPages * pageSize := by
            have hstep := Nat.mul_le_mul_right pageSize hpn
            simpa [Nat.succ_mul] using hstep
          omega
        refine ⟨?_, by simp [hg0, hg1, hc16, hc17, hc19, hc18, hq1, hpn]⟩
        simp only [List.getD_eq_getElem?_getD, hg0, hg1]
        simp [hc16, hc17, hc19, hc18, hq1, hpn, ht1,
          hrk _ hsl]
      · simp [hg0, hg1, hc16, hc17, hc19, hc18, hq1, hpn]
    · simp [hg0, hc16, hc17, hc19, hc18, hq1]
  by_cases hc20 : buf[0]?.getD 0 = 20
  · by_cases hq0 : q = 0 <;> simp [hg0, hc16, hc17, hc19, hc18, hc20, hq0]
  · simp [hg0, hc16, hc17, hc19, hc18, hc20]

/-- Claim C10: a frame body with an odd number of data nibbles is not
rejected for that reason — the final unpaired nibble is stored as a
half-built byte (`nibble << 4` at the current payload index) but is never
XORed into the running checksum and never increments the decoded payload
size, and finalization at `0xF7` then produces the same replies, the same
final parser state and the same flash contents as if that last nibble had
not been sent. -/
theorem oddTrailingNibbleDiscarded (pageSize numPages : Nat) (m : Machine)
    (b : Nat) (hst : m.st = PState.readingBody) (heven : m.bytesRead % 2 = 0)
    (hb : b ≤ 0xf) (hps : m.payloadSize < bufCapacity pageSize)
    (hbuf : m.buf.length = bufCapacity pageSize)
    (hflash : m.flash.length = numPages * pageSize) :
    step pageSize numPages m b
      = ({ m with buf := m.buf.set m.payloadSize ((b <<< 4) % 256),
                  bytesRead := m.bytesRead + 1 }, [])
    ∧ (step pageSize numPages
          { m with buf := m.buf.set m.payloadSize ((b <<< 4) % 256),
                   bytesRead := m.bytesRead + 1 } 0xf7).2
        = (step pageSize numPages m 0xf7).2
    ∧ (step pageSize numPages
          { m with buf := m.buf.set m.payloadSize ((b <<< 4) % 256),
                   bytesRead := m.bytesRead + 1 } 0xf7).1.st
        = (step pageSize numPages m 0xf7).1.st
    ∧ (step pageSize numPages
          { m with buf := m.buf.set m.payloadSize ((b <<< 4) % 256),
                   bytesRead := m.bytesRead + 1 } 0xf7).1.flash
        = (step pageSize numPages m 0xf7).1.flash := by
  obtain ⟨st, cs, br, ps, buf, fl⟩ := m
  simp only at hst heven hps hbuf hflash
  subst hst
  simp only [bufCapacity] at hps hbuf
  have hfirst : step pageSize numPages
      ⟨PState.readingBody, cs, br, ps, buf, fl⟩ b
      = (⟨PState.readingBody, cs, br + 1, ps,
          buf.set ps ((b <<< 4) % 256), fl⟩, []) := by
    unfold step
    simp [show b < 0x80 by omega, Nat.not_lt.mpr hb, heven, bufCapacity,
      show ¬ ps = pageSize + 3 by omega]
  refine ⟨hfirst, ?_⟩
  dsimp only
  by_cases h1 : ps ≤ 1
  · unfold step reply_error
    simp [h1]
  by_cases h2 : cs = 0
  · subst h2
    have hL := process_msg_ignores_high_set pageSize numPages
      PState.readingBody 0 br (br + 1) (ps - 2) buf fl ps ((b <<< 4) % 256)
      (by omega) hbuf hflash (by omega)
    unfold step
    simp only [show ¬ (247 : Nat) < 128 by decide, if_false,
      show (247 : Nat) ≠ 240 by decide, if_neg, if_pos, if_true]
    simp [h1, hL.1, hL.2]
  · unfold step reply_error
    simp [h1, h2]

/-- Witness for `oddTrailingNibbleDiscarded`: mid-frame state holding the
decoded bytes of a Verify request for page 1, one stray nibble `0x9`
arriving, then the end delimiter. -/
theorem oddTrailingNibbleDiscarded_witness :
    step 4 8
        { st := PState.readingBody, checksum := 0, bytesRead := 6,
          payloadSize := 3, buf := [0x13, 0x01, 0x12, 0, 0, 0, 0],
          flash := List.replicate 32 0 } 0x9
      = ({ st := PState.readingBody, checksum := 0, bytesRead := 7,
           payloadSize := 3,
           buf := [0x13, 0x01, 0x12, 0x90, 0, 0, 0],
           flash := List.replicate 32 0 }, [])
    ∧ (step 4 8
          { st := PState.readingBody, checksum := 0, bytesRead := 7,
            payloadSize := 3, buf := [0x13, 0x01, 0x12, 0x90, 0, 0, 0],
            flash := List.replicate 32 0 } 0xf7).2
        = (step 4 8
            { st := PState.readingBody, checksum := 0, bytesRead := 6,
              payloadSize := 3, buf := [0x13, 0x01, 0x12, 0, 0, 0, 0],
              flash := List.replicate 32 0 } 0xf7).2 := by
  have h := oddTrailingNibbleDiscarded 4 8
    { st := PState.readingBody, checksum := 0, bytesRead := 6,
      payloadSize := 3, buf := [0x13, 0x01, 0x12, 0, 0, 0, 0],
      flash := List.replicate 32 0 } 0x9 rfl (by decide) (by decide)
    (by decide) (by decide) (by decide)
  exact ⟨h.1, h.2.1⟩

end Boot
